import Mathlib

/-!
Verification of the FastCGI gateway in src/main.rs.

Byte sequences are modelled as List Nat (each entry an octet value).
The response parser (parse_fpm_response, parse_fpm_header, HeaderIter),
the request-parameter derivation inside dispatch_to_fpm, the handler's
error mapping, and the worker-supervision surface (run_php_fpm,
kill_process_group) are embedded as executable Lean definitions.
Semantics of the http-crate functions the source calls
(HeaderName::from_bytes, HeaderValue::from_bytes, HeaderValue::to_str,
StatusCode::from_u16, HeaderMap::insert/get, str::parse) are embedded
faithfully to those libraries where the source relies on them.
-/

/-- Bytes of a string literal (all our literals are ASCII). -/
def bytes (s : String) : List Nat := s.data.map Char.toNat

/-- Rust u8::is_ascii_digit. -/
def isAsciiDigit (b : Nat) : Bool := 48 ≤ b && b ≤ 57

/-- Valid HTTP header-name byte per http's HeaderName::from_bytes table:
ASCII letters and digits plus the RFC 7230 token specials; uppercase
letters are accepted and mapped to lowercase by lowerByte. -/
def isTokenByte (b : Nat) : Bool :=
  (48 ≤ b && b ≤ 57) || (97 ≤ b && b ≤ 122) || (65 ≤ b && b ≤ 90) ||
  b = 33 || b = 35 || b = 36 || b = 37 || b = 38 || b = 39 || b = 42 ||
  b = 43 || b = 45 || b = 46 || b = 94 || b = 95 || b = 96 || b = 124 || b = 126

/-- Lowercasing of an ASCII byte, as HeaderName::from_bytes applies. -/
def lowerByte (b : Nat) : Nat := if 65 ≤ b && b ≤ 90 then b + 32 else b

/-- Valid HTTP header-value byte per http's HeaderValue::from_bytes:
any byte that is not a control character or DEL (tab allowed). -/
def isValidValueByte (b : Nat) : Bool := (32 ≤ b && b ≤ 255 && b != 127) || b = 9

/-- Parse-error kinds of the response parser (spec section 7 names the
first three; the last two are the http-crate name/value validation
failures propagated by the question-mark operator in parse_fpm_header). -/
inductive ParseError where
  | missingBodyBoundary
  | malformedHeaderLine
  | invalidStatus
  | invalidHeaderName
  | invalidHeaderValue
deriving DecidableEq

/-- Embeds data.windows(pat.len()).position(|w| w == pat): index of the
first position at which pat occurs as a contiguous subsequence. -/
def findSub (pat : List Nat) : List Nat → Option Nat
  | [] => if pat.isPrefixOf ([] : List Nat) then some 0 else none
  | d :: rest =>
    if pat.isPrefixOf (d :: rest) then some 0
    else (findSub pat rest).map (· + 1)

/-- The blank-line boundary searched for by parse_fpm_response. -/
def boundaryBytes : List Nat := [13, 10, 13, 10]

/-- The name/value separator searched for by parse_fpm_header. -/
def sepBytes : List Nat := [58, 32]

/-- The line terminator HeaderIter splits on. -/
def crlfBytes : List Nat := [13, 10]

/-- Embeds http's HeaderName::from_bytes: rejects an empty name or any
non-token byte, and stores the name lowercased. -/
def headerNameFromBytes (data : List Nat) : Except ParseError (List Nat) :=
  if data ≠ [] ∧ data.all isTokenByte then .ok (data.map lowerByte)
  else .error .invalidHeaderName

/-- Embeds http's HeaderValue::from_bytes: rejects control bytes and DEL. -/
def headerValueFromBytes (data : List Nat) : Except ParseError (List Nat) :=
  if data.all isValidValueByte then .ok data else .error .invalidHeaderValue

/-- The body of parse_fpm_header after the separator has been found at ix:
HeaderName::from_bytes on the part before, HeaderValue::from_bytes on the
part after, errors propagated in that order. -/
def mkHeader (nameBytes valueBytes : List Nat) :
    Except ParseError (List Nat × List Nat) :=
  match headerNameFromBytes nameBytes with
  | .error e => .error e
  | .ok n =>
    match headerValueFromBytes valueBytes with
    | .error e => .error e
    | .ok v => .ok (n, v)

/-- Embeds parse_fpm_header (src/main.rs lines 151-161): split at the first
": " occurrence; its absence is the "invalid header" error. -/
def parse_fpm_header (data : List Nat) : Except ParseError (List Nat × List Nat) :=
  match findSub sepBytes data with
  | some ix => mkHeader (data.take ix) (data.drop (ix + 2))
  | none => .error .malformedHeaderLine

/-- Embeds HeaderIter (src/main.rs lines 129-148) as the list of header
lines it yields: on empty input no lines; otherwise the bytes before the
first CRLF, then the lines of what follows it; a final segment with no
CRLF is yielded as-is.  Fuel-structured for executability; each step
consumes at least the two separator bytes, so data.length fuel suffices. -/
def splitLinesAux : Nat → List Nat → List (List Nat)
  | _, [] => []
  | 0, data => [data]
  | fuel + 1, d :: rest =>
    match findSub crlfBytes (d :: rest) with
    | some ix => (d :: rest).take ix :: splitLinesAux fuel ((d :: rest).drop (ix + 2))
    | none => [d :: rest]

def splitLines (data : List Nat) : List (List Nat) :=
  splitLinesAux data.length data

/-- The lowercased status header name compared against in the parse loop. -/
def statusBytes : List Nat := bytes "status"

/-- ds.foldl: value of a run of ASCII-digit bytes read in base 10. -/
def digitsToNat (ds : List Nat) : Nat :=
  ds.foldl (fun acc d => acc * 10 + (d - 48)) 0

/-- Embeds the status-value handling of parse_fpm_response lines 175-184:
take_while(is_ascii_digit), str::parse::<u16> (fails on an empty digit
run or a value at or above 2^16), then StatusCode::from_u16 (fails
outside 100..=999). -/
def statusFromValue (value : List Nat) : Except ParseError Nat :=
  if value.takeWhile isAsciiDigit = [] then .error .invalidStatus
  else
    if digitsToNat (value.takeWhile isAsciiDigit) < 65536 then
      if 100 ≤ digitsToNat (value.takeWhile isAsciiDigit) ∧
          digitsToNat (value.takeWhile isAsciiDigit) < 1000 then
        .ok (digitsToNat (value.takeWhile isAsciiDigit))
      else .error .invalidStatus
    else .error .invalidStatus

/-- Embeds HeaderMap::insert for the unique-name maps built here: any
earlier entry for the name is replaced, so the last occurrence wins. -/
def insertHeader (hs : List (List Nat × List Nat)) (name value : List Nat) :
    List (List Nat × List Nat) :=
  (hs.filter (fun p => p.1 ≠ name)) ++ [(name, value)]

/-- Embeds HeaderMap::get (and contains_key) for a lowercased query name. -/
def getHeader (hs : List (List Nat × List Nat)) (name : List Nat) :
    Option (List Nat) :=
  (hs.find? (fun p => p.1 == name)).map (fun p => p.2)

/-- One iteration of the for-loop in parse_fpm_response lines 172-188:
parse the line; a name equal to "status" (HeaderName equality, hence
case-insensitive on the raw bytes) updates the status and is not
inserted; any other header is inserted into the map. -/
def processHeaderLine (acc : Nat × List (List Nat × List Nat)) (line : List Nat) :
    Except ParseError (Nat × List (List Nat × List Nat)) :=
  match parse_fpm_header line with
  | .error e => .error e
  | .ok (name, value) =>
    if name = statusBytes then
      match statusFromValue value with
      | .error e => .error e
      | .ok code => .ok (code, acc.2)
    else .ok (acc.1, insertHeader acc.2 name value)

/-- Embeds parse_fpm_response (src/main.rs lines 163-191): find the first
CRLFCRLF ("headers not found" when absent), run the header loop over the
lines before it starting from status 200 and an empty map, and return the
bytes after it as the body. -/
def parse_fpm_response (data : List Nat) :
    Except ParseError (Nat × List (List Nat × List Nat) × List Nat) :=
  match findSub boundaryBytes data with
  | none => .error .missingBodyBoundary
  | some ix =>
    match List.foldlM processHeaderLine (200, ([] : List (List Nat × List Nat)))
        (splitLines (data.take ix)) with
    | .error e => .error e
    | .ok (status, headers) => .ok (status, headers, data.drop (ix + 4))

lemma isPrefixOf_nil_of_ne_nil {pat : List Nat} (h : pat ≠ []) :
    pat.isPrefixOf ([] : List Nat) = false := by
  cases pat with
  | nil => exact absurd rfl h
  | cons a as => rfl

/-- If the pattern occurs nowhere in the buffer, the windows-position
search finds nothing. -/
lemma findSub_eq_none {pat : List Nat} (hpat : pat ≠ []) :
    ∀ data : List Nat,
      (∀ i, i < data.length → ¬(pat.isPrefixOf (data.drop i) = true)) →
      findSub pat data = none := by
  intro data
  induction data with
  | nil =>
    intro _
    simp [findSub, isPrefixOf_nil_of_ne_nil hpat]
  | cons d rest ih =>
    intro h
    have h0 : ¬(pat.isPrefixOf (d :: rest) = true) := by
      simpa using h 0 (by simp)
    have htail : findSub pat rest = none := by
      refine ih ?_
      intro i hi
      simpa using h (i + 1) (by simpa using Nat.succ_lt_succ hi)
    simp [findSub, h0, htail]

/-- The windows-position search returns the index of the first occurrence:
the pattern occurs there and at no earlier index. -/
lemma findSub_eq_some {pat : List Nat} :
    ∀ (data : List Nat) (ix : Nat), findSub pat data = some ix →
      pat.isPrefixOf (data.drop ix) = true ∧
      ∀ j, j < ix → ¬(pat.isPrefixOf (data.drop j) = true) := by
  intro data
  induction data with
  | nil =>
    intro ix h
    by_cases hp : pat.isPrefixOf ([] : List Nat) = true
    · simp [findSub, hp] at h
      subst h
      exact ⟨by simpa using hp, by omega⟩
    · simp [findSub, hp] at h
  | cons d rest ih =>
    intro ix h
    by_cases hp : pat.isPrefixOf (d :: rest) = true
    · simp [findSub, hp] at h
      subst h
      exact ⟨by simpa using hp, by omega⟩
    · simp [findSub, hp] at h
      obtain ⟨ix', hix', rfl⟩ := h
      obtain ⟨h1, h2⟩ := ih ix' hix'
      refine ⟨by simpa using h1, ?_⟩
      intro j hj
      cases j with
      | zero => simpa using hp
      | succ j' =>
        have := h2 j' (by omega)
        simpa using this

/-- Claim C1: the raw backend response
Status: 404 Not Found CRLF X-Foo: bar CRLF CRLF body-bytes
parses to status 404, a header mapping that contains x-foo (the
case-insensitively stored form of X-Foo) with value bar and no header
named status, and the body is exactly the bytes after the boundary. -/
theorem c1_roundtrip_404 :
    parse_fpm_response (bytes "Status: 404 Not Found\r\nX-Foo: bar\r\n\r\nbody-bytes")
      = .ok (404, [(bytes "x-foo", bytes "bar")], bytes "body-bytes")
    ∧ getHeader [(bytes "x-foo", bytes "bar")] (bytes "x-foo") = some (bytes "bar")
    ∧ getHeader [(bytes "x-foo", bytes "bar")] statusBytes = none :=
  ⟨rfl, rfl, rfl⟩

/-- Claim C3: the parser takes the header/body boundary to be the first
occurrence of the blank line CRLFCRLF; a buffer in which that four-byte
sequence occurs at no position fails with missingBodyBoundary, and when
an occurrence exists the search yields its first index and the body of a
successful parse is exactly the bytes after that first occurrence. -/
theorem c3_missing_boundary : ∀ data : List Nat,
    ((∀ i, i < data.length → ¬(boundaryBytes.isPrefixOf (data.drop i) = true)) →
      parse_fpm_response data = .error .missingBodyBoundary)
    ∧ (∀ ix, findSub boundaryBytes data = some ix →
        boundaryBytes.isPrefixOf (data.drop ix) = true
        ∧ (∀ j, j < ix → ¬(boundaryBytes.isPrefixOf (data.drop j) = true))
        ∧ (∀ s hs b, parse_fpm_response data = .ok (s, hs, b) →
            b = data.drop (ix + 4))) := by
  intro data
  constructor
  · intro h
    have hnone : findSub boundaryBytes data = none :=
      findSub_eq_none (by simp [boundaryBytes]) data h
    simp [parse_fpm_response, hnone]
  · intro ix hix
    obtain ⟨h1, h2⟩ := findSub_eq_some data ix hix
    refine ⟨h1, h2, ?_⟩
    intro s hs b hparse
    rw [parse_fpm_response, hix] at hparse
    cases hfold : List.foldlM processHeaderLine (200, ([] : List (List Nat × List Nat)))
        (splitLines (data.take ix)) with
    | error e => simp [hfold] at hparse
    | ok p =>
      obtain ⟨st, hh⟩ := p
      simp [hfold] at hparse
      exact hparse.2.2.symm

/-- Claim C3 witness: the buffer abc has no blank-line boundary at any of
its positions and the parser rejects it with missingBodyBoundary. -/
theorem c3_missing_boundary_witness :
    (∀ i, i < (bytes "abc").length →
      ¬(boundaryBytes.isPrefixOf ((bytes "abc").drop i) = true))
    ∧ parse_fpm_response (bytes "abc") = .error .missingBodyBoundary :=
  ⟨by decide, (c3_missing_boundary (bytes "abc")).1 (by decide)⟩

/-- Claim C4: a header line is split into name and value at the first
occurrence of the two-byte separator colon-space; when the separator
occurs at no position of the line, parsing the line fails with
malformedHeaderLine, and when it does occur the line is split at its
first index into the name bytes before it and the value bytes after it. -/
theorem c4_header_split : ∀ data : List Nat,
    ((∀ i, i < data.length → ¬(sepBytes.isPrefixOf (data.drop i) = true)) →
      parse_fpm_header data = .error .malformedHeaderLine)
    ∧ (∀ ix, findSub sepBytes data = some ix →
        sepBytes.isPrefixOf (data.drop ix) = true
        ∧ (∀ j, j < ix → ¬(sepBytes.isPrefixOf (data.drop j) = true))
        ∧ parse_fpm_header data = mkHeader (data.take ix) (data.drop (ix + 2))) := by
  intro data
  constructor
  · intro h
    have hnone : findSub sepBytes data = none :=
      findSub_eq_none (by simp [sepBytes]) data h
    simp [parse_fpm_header, hnone]
  · intro ix hix
    obtain ⟨h1, h2⟩ := findSub_eq_some data ix hix
    exact ⟨h1, h2, by rw [parse_fpm_header, hix]⟩

/-- Claim C4 witness: the line no-separator-here contains no colon-space
pair and parsing it fails with malformedHeaderLine. -/
theorem c4_header_split_witness :
    (∀ i, i < (bytes "no-separator-here").length →
      ¬(sepBytes.isPrefixOf ((bytes "no-separator-here").drop i) = true))
    ∧ parse_fpm_header (bytes "no-separator-here") = .error .malformedHeaderLine :=
  ⟨by decide, (c4_header_split (bytes "no-separator-here")).1 (by decide)⟩

/-- Claim C10: a raw response beginning with the blank-line boundary has
an empty header block; the parser succeeds with the default status 200,
an empty header mapping, and all bytes after the boundary as the body. -/
theorem c10_empty_header_block : ∀ rest : List Nat,
    parse_fpm_response (boundaryBytes ++ rest) = .ok (200, [], rest) := by
  intro rest
  have hfind : findSub boundaryBytes (13 :: 10 :: 13 :: 10 :: rest) = some 0 := by
    simp [findSub]
    exact ⟨rest, rfl⟩
  show parse_fpm_response (13 :: 10 :: 13 :: 10 :: rest) = _
  rw [parse_fpm_response, hfind]
  rfl

/-- Running the header loop over lines none of which parses to a header
named status leaves the status accumulator unchanged. -/
lemma foldlM_status_const (lines : List (List Nat)) :
    ∀ (s0 : Nat) (hs0 : List (List Nat × List Nat)) (s : Nat)
      (hs : List (List Nat × List Nat)),
      (∀ line ∈ lines, (parse_fpm_header line).toOption.map Prod.fst ≠ some statusBytes) →
      List.foldlM processHeaderLine (s0, hs0) lines = .ok (s, hs) → s = s0 := by
  induction lines with
  | nil =>
    intro s0 hs0 s hs _ h
    simp [List.foldlM, pure, Except.pure] at h
    exact h.1.symm
  | cons line rest ih =>
    intro s0 hs0 s hs hno h
    simp only [List.foldlM] at h
    cases hp : parse_fpm_header line with
    | error e =>
      have hstep : processHeaderLine (s0, hs0) line = .error e := by
        simp [processHeaderLine, hp]
      rw [hstep] at h
      simp [Bind.bind, Except.bind] at h
    | ok nv =>
      obtain ⟨n, v⟩ := nv
      have hn : n ≠ statusBytes := by
        intro hEq
        apply hno line (List.mem_cons_self line rest)
        rw [hp, hEq]
        rfl
      have hstep : processHeaderLine (s0, hs0) line = .ok (s0, insertHeader hs0 n v) := by
        simp [processHeaderLine, hp, hn]
      rw [hstep] at h
      simp only [Bind.bind, Except.bind] at h
      exact ih s0 (insertHeader hs0 n v) s hs
        (fun l hl => hno l (List.mem_cons_of_mem _ hl)) h

/-- Claim C7: a well-formed raw response whose header block contains no
header that parses to the name status yields status 200; concretely,
Content-Type: text/plain CRLF CRLF hi parses to status 200, exactly one
header, and body hi. -/
theorem c7_default_status :
    (∀ (data : List Nat) (ix s : Nat) (hs : List (List Nat × List Nat)) (b : List Nat),
      findSub boundaryBytes data = some ix →
      (∀ line ∈ splitLines (data.take ix),
          (parse_fpm_header line).toOption.map Prod.fst ≠ some statusBytes) →
      parse_fpm_response data = .ok (s, hs, b) → s = 200)
    ∧ parse_fpm_response (bytes "Content-Type: text/plain\r\n\r\nhi")
        = .ok (200, [(bytes "content-type", bytes "text/plain")], bytes "hi")
    ∧ [(bytes "content-type", bytes "text/plain")].length = 1 := by
  refine ⟨?_, rfl, rfl⟩
  intro data ix s hs b hfind hno hparse
  rw [parse_fpm_response, hfind] at hparse
  cases hfold : List.foldlM processHeaderLine (200, ([] : List (List Nat × List Nat)))
      (splitLines (data.take ix)) with
  | error e => simp [hfold] at hparse
  | ok p =>
    obtain ⟨st, hh⟩ := p
    simp [hfold] at hparse
    have hconst := foldlM_status_const (splitLines (data.take ix)) 200 [] st hh hno hfold
    have h1 := hparse.1
    omega

/-- Claim C7 witness: the response A: b CRLF CRLF xyz has a boundary at
index 4, its single header line does not parse to the name status, and
the main theorem applies to its successful parse, whose status is 200. -/
theorem c7_default_status_witness :
    findSub boundaryBytes (bytes "A: b\r\n\r\nxyz") = some 4
    ∧ (∀ line ∈ splitLines ((bytes "A: b\r\n\r\nxyz").take 4),
        (parse_fpm_header line).toOption.map Prod.fst ≠ some statusBytes)
    ∧ (200 : Nat) = 200 :=
  ⟨rfl, by decide,
    c7_default_status.1 (bytes "A: b\r\n\r\nxyz") 4 200 [(bytes "a", bytes "b")]
      (bytes "xyz") rfl (by decide) rfl⟩

/-- Claim C2 counterexample: the Status value 42 has a leading digit run
that parses as a 16-bit unsigned integer, yet the parser does not use 42
as the HTTP status code: StatusCode::from_u16 rejects codes below 100,
so parsing fails instead of succeeding with status 42. -/
theorem c2_counterexample_status_42 :
    (bytes "42").takeWhile isAsciiDigit = bytes "42"
    ∧ digitsToNat (bytes "42") = 42
    ∧ parse_fpm_response (bytes "Status: 42\r\n\r\nx") = .error .invalidStatus :=
  ⟨rfl, rfl, rfl⟩

/-- Claim C2 amended: for a header whose name case-insensitively equals
status, the leading ASCII-digit run of the value is parsed as a 16-bit
unsigned integer and used as the HTTP status code only when it lies in
the valid range 100-999; a missing digit run, a run at or above 2^16, or
a value outside 100-999 fails with invalidStatus.  Concretely a Status
value of abc fails with invalidStatus and 204 No Content yields 204. -/
theorem c2_amended_status_range :
    (∀ v : List Nat,
      (v.takeWhile isAsciiDigit = [] → statusFromValue v = .error .invalidStatus)
      ∧ (v.takeWhile isAsciiDigit ≠ [] →
          (digitsToNat (v.takeWhile isAsciiDigit) < 65536 →
            100 ≤ digitsToNat (v.takeWhile isAsciiDigit) →
            digitsToNat (v.takeWhile isAsciiDigit) < 1000 →
            statusFromValue v = .ok (digitsToNat (v.takeWhile isAsciiDigit)))
          ∧ (65536 ≤ digitsToNat (v.takeWhile isAsciiDigit) ∨
              digitsToNat (v.takeWhile isAsciiDigit) < 100 ∨
              1000 ≤ digitsToNat (v.takeWhile isAsciiDigit) →
            statusFromValue v = .error .invalidStatus)))
    ∧ parse_fpm_response (bytes "Status: abc\r\n\r\nZ") = .error .invalidStatus
    ∧ parse_fpm_response (bytes "Status: 204 No Content\r\n\r\nok")
        = .ok (204, [], bytes "ok") := by
  refine ⟨?_, rfl, rfl⟩
  intro v
  constructor
  · intro h
    simp [statusFromValue, h]
  · intro hne
    constructor
    · intro h1 h2 h3
      simp [statusFromValue, hne, h1, h2, h3]
    · intro hcase
      rcases hcase with h | h | h
      · have hbig : ¬ (digitsToNat (v.takeWhile isAsciiDigit) < 65536) := by omega
        simp [statusFromValue, hne, hbig]
      · have hsmall : digitsToNat (v.takeWhile isAsciiDigit) < 65536 := by omega
        have hran : ¬ (100 ≤ digitsToNat (v.takeWhile isAsciiDigit) ∧
            digitsToNat (v.takeWhile isAsciiDigit) < 1000) := by omega
        simp [statusFromValue, hne, hsmall, hran]
      · by_cases hbig : digitsToNat (v.takeWhile isAsciiDigit) < 65536
        · have hran : ¬ (100 ≤ digitsToNat (v.takeWhile isAsciiDigit) ∧
              digitsToNat (v.takeWhile isAsciiDigit) < 1000) := by omega
          simp [statusFromValue, hne, hbig, hran]
        · simp [statusFromValue, hne, hbig]

/-- Claim C2 witness: the Status value 204 No Content has the nonempty
digit run 204, which is within 100-999, and the amended theorem yields
status 204 for it. -/
theorem c2_amended_status_range_witness :
    (bytes "204 No Content").takeWhile isAsciiDigit ≠ []
    ∧ statusFromValue (bytes "204 No Content") = .ok 204 := by
  refine ⟨by decide, ?_⟩
  have h := ((c2_amended_status_range.1 (bytes "204 No Content")).2 (by decide)).1
    (by decide) (by decide) (by decide)
  simpa using h

/-- The gateway configuration (src/main.rs lines 37-42). -/
structure FpmConfig where
  script_path : String
  addr : String
  config_path : String
deriving DecidableEq

/-- Embeds FpmConfig::new (src/main.rs lines 44-66).  Filesystem path
canonicalization (fs::canonicalize plus the to_str unicode check) is an
external collaborator, passed in as canon; it is applied to both paths
before the config is built, and either failure aborts construction. -/
def FpmConfig.new (canon : String → Option String)
    (script_path config_path addr : String) : Option FpmConfig :=
  match canon script_path with
  | none => none
  | some sp =>
    match canon config_path with
    | none => none
    | some cp => some { script_path := sp, addr := addr, config_path := cp }

/-- An inbound HTTP request as dispatch_to_fpm reads it: the method and
the header mapping (names stored lowercased, as axum's HeaderMap does). -/
structure InboundRequest where
  method : String
  headers : List (List Nat × List Nat)

/-- The one request-translation failure kind (spec section 7): a
content-length or content-type header value that fails
HeaderValue::to_str or usize parsing, propagated by question mark. -/
inductive DispatchError where
  | malformedHeader
deriving DecidableEq

/-- Byte accepted by http's HeaderValue::to_str: visible ASCII or tab. -/
def isVisibleAsciiByte (b : Nat) : Bool := (32 ≤ b && b ≤ 126) || b = 9

/-- Embeds HeaderValue::to_str: succeeds exactly when every byte is
visible ASCII (or tab), returning the value bytes unchanged. -/
def toStr (v : List Nat) : Option (List Nat) :=
  if v.all isVisibleAsciiByte then some v else none

/-- Digit-run half of str::parse::<usize>: a nonempty all-digit run whose
value fits in the 64-bit usize. -/
def parseUsizeDigits (t : List Nat) : Option Nat :=
  if t ≠ [] ∧ t.all isAsciiDigit then
    if digitsToNat t < 18446744073709551616 then some (digitsToNat t) else none
  else none

/-- Embeds str::parse::<usize>: an optional leading plus sign, then a
nonempty ASCII-digit run; fails on anything else and on overflow past
usize::MAX (64-bit). -/
def parseUsize (s : List Nat) : Option Nat :=
  parseUsizeDigits (if s.headD 0 = 43 then s.tail else s)

/-- The FastCGI parameter set built in dispatch_to_fpm lines 72-90. -/
structure Params where
  request_method : String
  script_filename : String
  script_name : String
  request_uri : String
  remote_addr : String
  remote_port : Nat
  server_addr : String
  server_port : Nat
  server_name : String
  content_length : Option Nat
  content_type : Option (List Nat)
deriving DecidableEq

/-- Embeds the Params::default() builder chain of dispatch_to_fpm lines
72-81: the method verbatim, the configured script path, and the fixed
synthetic script/URI/network identities. -/
def baseParams (config : FpmConfig) (req : InboundRequest) : Params :=
  { request_method := req.method
    script_filename := config.script_path
    script_name := "/indx.php"
    request_uri := "/"
    remote_addr := "127.0.0.1"
    remote_port := 12345
    server_addr := "127.0.0.1"
    server_port := 80
    server_name := "localhost"
    content_length := none
    content_type := none }

def contentLengthBytes : List Nat := bytes "content-length"

def contentTypeBytes : List Nat := bytes "content-type"

/-- The content-type step of dispatch_to_fpm lines 88-90: copy the header
verbatim when present (to_str failure propagates), else leave it unset. -/
def withContentType (req : InboundRequest) (p : Params) :
    Except DispatchError Params :=
  match getHeader req.headers contentTypeBytes with
  | some v =>
    match toStr v with
    | none => .error .malformedHeader
    | some s => .ok { p with content_type := some s }
  | none => .ok p

/-- Embeds the parameter derivation of dispatch_to_fpm (src/main.rs lines
72-90): the base parameter set, then the content-length step (to_str and
usize parse, both failures propagated), then the content-type step. -/
def dispatch_params (config : FpmConfig) (req : InboundRequest) :
    Except DispatchError Params :=
  match getHeader req.headers contentLengthBytes with
  | some v =>
    match toStr v with
    | none => .error .malformedHeader
    | some s =>
      match parseUsize s with
      | none => .error .malformedHeader
      | some n =>
        withContentType req { baseParams config req with content_length := some n }
  | none => withContentType req (baseParams config req)

/-- The content-type step never changes the content-length or
script-filename parameters. -/
lemma withContentType_preserves (req : InboundRequest) (p q : Params)
    (h : withContentType req p = .ok q) :
    q.content_length = p.content_length ∧ q.script_filename = p.script_filename := by
  rw [withContentType] at h
  cases hct : getHeader req.headers contentTypeBytes with
  | none =>
    simp only [hct] at h
    injection h with h2
    subst h2
    exact ⟨rfl, rfl⟩
  | some v =>
    simp only [hct] at h
    cases hts : toStr v with
    | none => simp only [hts] at h; simp at h
    | some s =>
      simp only [hts] at h
      injection h with h2
      subst h2
      exact ⟨rfl, rfl⟩

lemma toStr_of_digits {v : List Nat} (h : v.all isAsciiDigit = true) :
    toStr v = some v := by
  rw [toStr, if_pos]
  rw [List.all_eq_true] at h ⊢
  intro x hx
  have hd := h x hx
  simp only [isAsciiDigit, Bool.and_eq_true, decide_eq_true_eq] at hd
  simp only [isVisibleAsciiByte, Bool.or_eq_true, Bool.and_eq_true, decide_eq_true_eq]
  omega

lemma parseUsize_of_digits {v : List Nat} (hne : v ≠ [])
    (hdig : v.all isAsciiDigit = true)
    (hlt : digitsToNat v < 18446744073709551616) :
    parseUsize v = some (digitsToNat v) := by
  have hhead : ¬ (v.headD 0 = 43) := by
    cases v with
    | nil => exact absurd rfl hne
    | cons b bs =>
      have hb := (List.all_eq_true.mp hdig) b (List.mem_cons_self b bs)
      simp only [isAsciiDigit, Bool.and_eq_true, decide_eq_true_eq] at hb
      simp only [List.headD_cons]
      omega
  rw [parseUsize, if_neg hhead, parseUsizeDigits, if_pos ⟨hne, hdig⟩, if_pos hlt]

/-- Claim C5 counterexample: the request carries a content-length value
that is the decimal numeral of 2^64, a non-negative integer, yet the
translator fails with malformedHeader instead of carrying that value:
str::parse::<usize> overflows. -/
theorem c5_counterexample_overflow :
    digitsToNat (bytes "18446744073709551616") = 18446744073709551616
    ∧ dispatch_params
        { script_path := "/srv/pub/index.php", addr := "127.0.0.1:9000",
          config_path := "/etc/php-fpm.conf" }
        { method := "POST",
          headers := [(bytes "content-length", bytes "18446744073709551616")] }
        = .error .malformedHeader :=
  ⟨rfl, rfl⟩

/-- Claim C5 amended: a content-length value that is a non-negative
integer numeral fitting in the 64-bit usize (below 2^64) is carried
exactly into the derived parameter; a value str::parse::<usize> rejects
(non-numeric or overflowing) fails with malformedHeader; and absent
content-length and content-type headers are simply omitted with no
error. -/
theorem c5_amended_content_length :
    ∀ (cfg : FpmConfig) (req : InboundRequest),
      (∀ v, getHeader req.headers contentLengthBytes = some v →
        v ≠ [] → v.all isAsciiDigit = true →
        digitsToNat v < 18446744073709551616 →
        (∀ p, dispatch_params cfg req = .ok p →
            p.content_length = some (digitsToNat v))
        ∧ (getHeader req.headers contentTypeBytes = none →
            dispatch_params cfg req
              = .ok { baseParams cfg req with content_length := some (digitsToNat v) }))
      ∧ (∀ v s, getHeader req.headers contentLengthBytes = some v →
          toStr v = some s → parseUsize s = none →
          dispatch_params cfg req = .error .malformedHeader)
      ∧ (getHeader req.headers contentLengthBytes = none →
          getHeader req.headers contentTypeBytes = none →
          dispatch_params cfg req = .ok (baseParams cfg req)) := by
  intro cfg req
  refine ⟨?_, ?_, ?_⟩
  · intro v hv hne hdig hlt
    have hts := toStr_of_digits hdig
    have hpu := parseUsize_of_digits hne hdig hlt
    constructor
    · intro p hp
      rw [dispatch_params] at hp
      simp only [hv, hts, hpu] at hp
      exact (withContentType_preserves req _ p hp).1
    · intro hct
      rw [dispatch_params]
      simp only [hv, hts, hpu, withContentType, hct]
  · intro v s hv hts hpu
    rw [dispatch_params]
    simp only [hv, hts, hpu]
  · intro hcl hct
    rw [dispatch_params]
    simp only [hcl, withContentType, hct]

/-- Claim C5 witness: a request with content-length 42 and no
content-type dispatches successfully with the parameter carrying 42. -/
theorem c5_amended_content_length_witness :
    getHeader [(bytes "content-length", bytes "42")] contentLengthBytes
      = some (bytes "42")
    ∧ dispatch_params
        { script_path := "/srv/pub/index.php", addr := "127.0.0.1:9000",
          config_path := "/etc/php-fpm.conf" }
        { method := "POST", headers := [(bytes "content-length", bytes "42")] }
        = .ok { baseParams
            { script_path := "/srv/pub/index.php", addr := "127.0.0.1:9000",
              config_path := "/etc/php-fpm.conf" }
            { method := "POST", headers := [(bytes "content-length", bytes "42")] }
            with content_length := some (digitsToNat (bytes "42")) } :=
  ⟨rfl,
    ((c5_amended_content_length
        { script_path := "/srv/pub/index.php", addr := "127.0.0.1:9000",
          config_path := "/etc/php-fpm.conf" }
        { method := "POST", headers := [(bytes "content-length", bytes "42")] }).1
      (bytes "42") rfl (by decide) (by decide) (by decide)).2 rfl⟩

/-- Claim C9: the script_filename parameter of every successful
translation equals the configured script path, whatever the inbound
request contains; and FpmConfig construction stores exactly the
canonicalized form of the configured script path. -/
theorem c9_script_filename_invariant :
    (∀ (cfg : FpmConfig) (req : InboundRequest) (p : Params),
        dispatch_params cfg req = .ok p → p.script_filename = cfg.script_path)
    ∧ (∀ (canon : String → Option String) (sp cp addr : String) (cfg : FpmConfig),
        FpmConfig.new canon sp cp addr = some cfg →
        canon sp = some cfg.script_path) := by
  constructor
  · intro cfg req p hp
    rw [dispatch_params] at hp
    cases hcl : getHeader req.headers contentLengthBytes with
    | none =>
      simp only [hcl] at hp
      exact (withContentType_preserves req _ p hp).2
    | some v =>
      simp only [hcl] at hp
      cases hts : toStr v with
      | none => simp only [hts] at hp; simp at hp
      | some s =>
        simp only [hts] at hp
        cases hpu : parseUsize s with
        | none => simp only [hpu] at hp; simp at hp
        | some n =>
          simp only [hpu] at hp
          exact (withContentType_preserves req _ p hp).2
  · intro canon sp cp addr cfg h
    rw [FpmConfig.new] at h
    cases hsp : canon sp with
    | none => simp only [hsp] at h; simp at h
    | some spv =>
      simp only [hsp] at h
      cases hcp : canon cp with
      | none => simp only [hcp] at h; simp at h
      | some cpv =>
        simp only [hcp] at h
        injection h with h2
        subst h2
        rfl

/-- Claim C9 witness: a request with headers of its own choosing still
yields the configured script path as script_filename. -/
theorem c9_script_filename_invariant_witness :
    dispatch_params
      { script_path := "/srv/pub/index.php", addr := "127.0.0.1:9000",
        config_path := "/etc/php-fpm.conf" }
      { method := "GET", headers := [(bytes "x-script", bytes "/evil.php")] }
      = .ok (baseParams
          { script_path := "/srv/pub/index.php", addr := "127.0.0.1:9000",
            config_path := "/etc/php-fpm.conf" }
          { method := "GET", headers := [(bytes "x-script", bytes "/evil.php")] })
    ∧ (baseParams
        { script_path := "/srv/pub/index.php", addr := "127.0.0.1:9000",
          config_path := "/etc/php-fpm.conf" }
        { method := "GET", headers := [(bytes "x-script", bytes "/evil.php")] }
        ).script_filename = "/srv/pub/index.php" :=
  ⟨rfl,
    c9_script_filename_invariant.1
      { script_path := "/srv/pub/index.php", addr := "127.0.0.1:9000",
        config_path := "/etc/php-fpm.conf" }
      { method := "GET", headers := [(bytes "x-script", bytes "/evil.php")] }
      (baseParams
        { script_path := "/srv/pub/index.php", addr := "127.0.0.1:9000",
          config_path := "/etc/php-fpm.conf" }
        { method := "GET", headers := [(bytes "x-script", bytes "/evil.php")] })
      rfl⟩

/-- An outbound HTTP response as the handler produces it. -/
structure HttpResponse where
  status : Nat
  headers : List (List Nat × List Nat)
  body : List Nat
deriving DecidableEq

/-- Every per-request failure kind of the Translator - Transport - Parser
pipeline (spec section 7 taxonomy plus the "no stdout" transport case),
as collapsed into the one Box-dyn-Error type dispatch_to_fpm returns. -/
inductive GatewayError where
  | backendUnavailable
  | backendIOError
  | backendProtocolError
  | noStdout
  | translation (e : DispatchError)
  | parsing (e : ParseError)
deriving DecidableEq

/-- Embeds (StatusCode, HeaderMap, Vec<u8>)::into_response on the parsed
triple: status, headers, and body carried over verbatim. -/
def intoResponse (r : Nat × List (List Nat × List Nat) × List Nat) : HttpResponse :=
  { status := r.1, headers := r.2.1, body := r.2.2 }

/-- Embeds StatusCode::INTERNAL_SERVER_ERROR.into_response(): status 500,
no headers, empty body. -/
def internalServerError : HttpResponse :=
  { status := 500, headers := [], body := [] }

/-- Embeds handler (src/main.rs lines 112-117).  The awaited outcome of
dispatch_to_fpm's Translator - Transport - Parser pipeline is its Result
value, modelled as an Except: Ok passes the response through untouched,
and Err of any kind is replaced by the generic internal-server-error
response with the error value discarded (Err binds the wildcard). -/
def handler (result : Except GatewayError HttpResponse) : HttpResponse :=
  match result with
  | .ok res => res
  | .error _ => internalServerError

/-- Claim C6: any pipeline failure, whatever its kind, produces the one
generic internal-server-error response with status 500, no headers and
no body, carrying no detail of the error; a pipeline success returns the
parsed status, headers, and body verbatim. -/
theorem c6_generic_error_response :
    (∀ e : GatewayError,
      handler (.error e) = internalServerError
      ∧ (handler (.error e)).status = 500
      ∧ (handler (.error e)).headers = []
      ∧ (handler (.error e)).body = [])
    ∧ (∀ (s : Nat) (hs : List (List Nat × List Nat)) (b : List Nat),
        handler (.ok (intoResponse (s, hs, b)))
          = { status := s, headers := hs, body := b }) :=
  ⟨fun _ => ⟨rfl, rfl, rfl, rfl⟩, fun _ _ _ => rfl⟩

/-- What the gateway configures on a std::process::Command before
spawning.  Command::new followed by arg calls sets only the program and
its arguments; no process_group, setsid or pre_exec configuration is
made anywhere in the source, so the child is spawned into the parent's
process group (the std default), recorded here as the field
createsNewProcessGroup, which only such a call would set to true. -/
structure CommandSpec where
  program : String
  args : List String
  createsNewProcessGroup : Bool
deriving DecidableEq

/-- Embeds run_php_fpm (src/main.rs lines 193-199): php-fpm with the -n
flag (skip default ini discovery), -y and the configured file; no
process-group configuration. -/
def run_php_fpm (cfg : FpmConfig) : CommandSpec :=
  { program := "php-fpm"
    args := ["-n", "-y", cfg.config_path]
    createsNewProcessGroup := false }

inductive Signal where
  | sigterm
deriving DecidableEq

/-- The delivery target of a POSIX kill, per kill(2): a negative pid
argument addresses the process group whose id is its absolute value. -/
inductive SignalTarget where
  | process (pid : Int)
  | group (pgid : Int)
deriving DecidableEq

/-- kill(2) semantics for the pid argument values the gateway produces. -/
def signalTargetOf (pid : Int) : SignalTarget :=
  if pid < 0 then .group (-pid) else .process pid

/-- Embeds kill_process_group (src/main.rs lines 201-204): SIGTERM sent
to Pid::from_raw(-(child pid)), i.e. to the process group whose id
equals the child's pid. -/
def kill_process_group (childPid : Int) : SignalTarget × Signal :=
  (signalTargetOf (-childPid), .sigterm)

/-- Claim C8 evaluation: shutdown addresses the entire process group
identified by the child's pid, but the spawn configuration creates no
new process group, so the child was never made the leader of that group. -/
theorem c8_spawn_not_group_leader :
    (run_php_fpm
        { script_path := "/srv/pub/index.php", addr := "127.0.0.1:9000",
          config_path := "/etc/php-fpm.conf" }).createsNewProcessGroup = false
    ∧ (run_php_fpm
        { script_path := "/srv/pub/index.php", addr := "127.0.0.1:9000",
          config_path := "/etc/php-fpm.conf" }).args = ["-n", "-y", "/etc/php-fpm.conf"]
    ∧ kill_process_group 4242 = (.group 4242, .sigterm) := by
  refine ⟨rfl, rfl, ?_⟩
  rw [kill_process_group, signalTargetOf, if_pos (by omega)]
  norm_num
